import Mathlib

/-!
Shallow embedding of the traycer-frontend chat client's streaming-session
logic: the WebSocket transport reconnect policy from src/lib/websocket.ts,
the duration formatter, the per-request thinking-timeline accumulation of
the ChatApp WebSocket message handler, and the thinking-card visibility
gate.  Times are modelled as natural numbers of milliseconds.
-/

/- ------------------------------------------------------------------ -/
/- Generic helpers modelling JS records, arrays and string operations. -/
/- ------------------------------------------------------------------ -/

/-- JS record lookup: the binding for key `k` in an association list. -/
def recGet {α : Type} (m : List (String × α)) (k : String) : Option α :=
  match m with
  | [] => none
  | (k', v) :: rest => if k' = k then some v else recGet rest k

/-- JS record spread-update: overwrite the binding for `k`, or add it at the end. -/
def recSet {α : Type} (m : List (String × α)) (k : String) (v : α) : List (String × α) :=
  match m with
  | [] => [(k, v)]
  | (k', v') :: rest => if k' = k then (k', v) :: rest else (k', v') :: recSet rest k v

theorem recGet_recSet {α : Type} (m : List (String × α)) (k k' : String) (v : α) :
    recGet (recSet m k v) k' = if k = k' then some v else recGet m k' := by
  induction m with
  | nil =>
      by_cases h : k = k' <;> simp [recSet, recGet, h]
  | cons hd tl ih =>
      obtain ⟨k'', v''⟩ := hd
      by_cases h1 : k'' = k
      · subst h1
        by_cases h2 : k'' = k' <;> simp [recSet, recGet, h2]
      · by_cases h2 : k'' = k'
        · subst h2
          have hkk : ¬ k = k'' := fun h => h1 h.symm
          simp [recSet, recGet, h1, hkk]
        · simp [recSet, recGet, h1, h2, ih]

/-- JS `Array.prototype.findIndex`: index of the first element satisfying `p`. -/
def findIndexB {α : Type} (p : α → Bool) : List α → Option Nat
  | [] => none
  | a :: as => if p a then some 0 else (findIndexB p as).map (· + 1)

/-- In-place update of one array slot, as in `updated[i] = f (updated[i])`. -/
def modifyAt {α : Type} : List α → Nat → (α → α) → List α
  | [], _, _ => []
  | a :: as, 0, f => f a :: as
  | a :: as, n + 1, f => a :: modifyAt as n f

theorem findIndexB_none {α : Type} (p : α → Bool) (l : List α)
    (h : ∀ a ∈ l, p a = false) : findIndexB p l = none := by
  induction l with
  | nil => rfl
  | cons a as ih =>
      have ha : p a = false := h a (List.mem_cons_self a as)
      simp [findIndexB, ha, ih fun x hx => h x (List.mem_cons_of_mem a hx)]

theorem findIndexB_append_last {α : Type} (p : α → Bool) (l : List α) (x : α)
    (h : ∀ a ∈ l, p a = false) (hx : p x = true) :
    findIndexB p (l ++ [x]) = some l.length := by
  induction l with
  | nil => simp [findIndexB, hx]
  | cons a as ih =>
      have ha : p a = false := h a (List.mem_cons_self a as)
      simp [findIndexB, ha, ih fun y hy => h y (List.mem_cons_of_mem a hy)]

theorem findIndexB_isSome {α : Type} (p : α → Bool) (l : List α)
    (h : ∃ a ∈ l, p a = true) : ∃ i, findIndexB p l = some i := by
  induction l with
  | nil => simp at h
  | cons a as ih =>
      by_cases ha : p a = true
      · exact ⟨0, by simp [findIndexB, ha]⟩
      · obtain ⟨x, hx, hpx⟩ := h
        rcases List.mem_cons.mp hx with h1 | h1
        · exact absurd (h1 ▸ hpx) ha
        · obtain ⟨i, hi⟩ := ih ⟨x, h1, hpx⟩
          exact ⟨i + 1, by simp [findIndexB, ha, hi]⟩

theorem modifyAt_length {α : Type} (l : List α) (i : Nat) (f : α → α) :
    (modifyAt l i f).length = l.length := by
  induction l generalizing i with
  | nil => rfl
  | cons a as ih =>
      cases i with
      | zero => simp [modifyAt]
      | succ n => simp [modifyAt, ih]

theorem modifyAt_append_last {α : Type} (l : List α) (x : α) (f : α → α) :
    modifyAt (l ++ [x]) l.length f = l ++ [f x] := by
  induction l with
  | nil => rfl
  | cons a as ih => simp [modifyAt, ih]

/-- List-level prefix test between character lists. -/
def prefixTest : List Char → List Char → Bool
  | [], _ => true
  | _ :: _, [] => false
  | a :: as, b :: bs => (a == b) && prefixTest as bs

/-- JS `String.prototype.includes` on character lists. -/
def containsSub (needle : List Char) : List Char → Bool
  | [] => needle.isEmpty
  | a :: as => prefixTest needle (a :: as) || containsSub needle as

/-- JS `hay.includes(needle)`. -/
def strContains (hay needle : String) : Bool :=
  containsSub needle.data hay.data

/-- JS `String.prototype.toLowerCase` (ASCII-faithful model). -/
def lowerStr (s : String) : String :=
  String.mk (s.data.map Char.toLower)

theorem prefixTest_self_append (n rest : List Char) :
    prefixTest n (n ++ rest) = true := by
  induction n with
  | nil => rfl
  | cons a as ih => simp [prefixTest, ih]

theorem prefixTest_append {n l : List Char} (e : List Char)
    (h : prefixTest n l = true) : prefixTest n (l ++ e) = true := by
  induction n generalizing l with
  | nil => rfl
  | cons a as ih =>
      cases l with
      | nil => simp [prefixTest] at h
      | cons b bs =>
          simp [prefixTest] at h
          simp [prefixTest, h.1, ih h.2]

theorem containsSub_nil_needle (l : List Char) : containsSub [] l = true := by
  cases l with
  | nil => rfl
  | cons a as => simp [containsSub, prefixTest]

theorem containsSub_append_right {n l : List Char} (e : List Char)
    (h : containsSub n l = true) : containsSub n (l ++ e) = true := by
  induction l with
  | nil =>
      simp [containsSub, List.isEmpty_iff] at h
      subst h
      simp [containsSub_nil_needle]
  | cons a as ih =>
      simp [containsSub] at h
      rcases h with h | h
      · have h2 := prefixTest_append e h
        simp only [List.cons_append] at h2
        simp [containsSub, h2]
      · simp [containsSub, ih h]

theorem strData_append (a b : String) : (a ++ b).data = a.data ++ b.data := rfl

theorem str_append_assoc (a b c : String) : a ++ b ++ c = a ++ (b ++ c)  := by
  apply String.ext
  simp [strData_append]

theorem strContains_self_append (m rest : String) :
    strContains (m ++ rest) m = true := by
  unfold strContains
  rw [strData_append]
  cases hm : m.data with
  | nil => cases hr : rest.data with
    | nil => simp [containsSub, List.isEmpty_iff]
    | cons b bs => simp [containsSub, prefixTest]
  | cons a as =>
      have h2 := prefixTest_self_append m.data rest.data
      rw [hm] at h2
      simp only [List.cons_append] at h2
      simp [containsSub, h2]

theorem strContains_append_right {hay n : String} (e : String)
    (h : strContains hay n = true) : strContains (hay ++ e) n = true := by
  unfold strContains at h ⊢
  rw [strData_append]
  exact containsSub_append_right e.data h

/-- Concatenation of a list of payload strings, in arrival order. -/
def concatAll : List String → String
  | [] => ""
  | x :: xs => x ++ concatAll xs

theorem str_append_empty (a : String) : a ++ "" = a := by
  apply String.ext
  simp [strData_append]

/- ------------------------------------------------------------------ -/
/- Transport: src/lib/websocket.ts (WebSocketService reconnect logic). -/
/- ------------------------------------------------------------------ -/

def maxReconnectAttempts : Nat := 5

def reconnectTimeout : Nat := 3000

structure WSState where
  reconnectAttempts : Nat
deriving DecidableEq

/-- `attemptReconnect`: schedule `connect` after `reconnectTimeout` ms while
under the attempt bound; returns the new state and the scheduled delay. -/
def attemptReconnect (s : WSState) : WSState × Option Nat :=
  if s.reconnectAttempts < maxReconnectAttempts then
    ({ reconnectAttempts := s.reconnectAttempts + 1 }, some reconnectTimeout)
  else
    (s, none)

inductive WSEvent where
  | opened
  | closed
deriving DecidableEq

/-- One transport event: `onopen` resets the attempt counter; `onclose`
runs `attemptReconnect`. -/
def wsStep (s : WSState) : WSEvent → WSState × Option Nat
  | WSEvent.opened => ({ reconnectAttempts := 0 }, none)
  | WSEvent.closed => attemptReconnect s

/-- All reconnect delays scheduled while processing an event sequence. -/
def wsScheduled (s : WSState) : List WSEvent → List Nat
  | [] => []
  | e :: es =>
      let r := wsStep s e
      (match r.2 with
       | some d => [d]
       | none => []) ++ wsScheduled r.1 es

theorem wsScheduled_closed_bound (evs : List WSEvent) (s : WSState)
    (h : ∀ e ∈ evs, e = WSEvent.closed) :
    (wsScheduled s evs).length ≤ maxReconnectAttempts - s.reconnectAttempts := by
  induction evs generalizing s with
  | nil => simp [wsScheduled]
  | cons e es ih =>
      have he : e = WSEvent.closed := h e (List.mem_cons_self e es)
      subst he
      have hrest : ∀ x ∈ es, x = WSEvent.closed :=
        fun x hx => h x (List.mem_cons_of_mem _ hx)
      by_cases hlt : s.reconnectAttempts < maxReconnectAttempts
      · have hih := ih { reconnectAttempts := s.reconnectAttempts + 1 } hrest
        have hstep : wsScheduled s (WSEvent.closed :: es)
            = reconnectTimeout
                :: wsScheduled { reconnectAttempts := s.reconnectAttempts + 1 } es := by
          simp [wsScheduled, wsStep, attemptReconnect, hlt]
        rw [hstep]
        have hM : maxReconnectAttempts = 5 := rfl
        simp only [List.length_cons, hM] at hih hlt ⊢
        omega
      · have hih := ih s hrest
        have hstep : wsScheduled s (WSEvent.closed :: es) = wsScheduled s es := by
          simp [wsScheduled, wsStep, attemptReconnect, hlt]
        rw [hstep]
        exact hih

theorem wsScheduled_delay (s : WSState) (evs : List WSEvent) (d : Nat)
    (h : d ∈ wsScheduled s evs) : d = reconnectTimeout := by
  induction evs generalizing s with
  | nil => simp [wsScheduled] at h
  | cons e es ih =>
      cases e with
      | opened =>
          simp [wsScheduled, wsStep] at h
          exact ih _ h
      | closed =>
          by_cases hlt : s.reconnectAttempts < maxReconnectAttempts
          · simp [wsScheduled, wsStep, attemptReconnect, hlt] at h
            rcases h with h | h
            · exact h
            · exact ih _ h
          · simp [wsScheduled, wsStep, attemptReconnect, hlt] at h
            exact ih _ h

/- ------------------------------------------------------------------ -/
/- Duration formatter: formatDuration in the ChatApp component.        -/
/- ------------------------------------------------------------------ -/

/-- `formatDuration(startTime, endTime?)`: elapsed between the two stored
timestamps (default `now` when no end), `"<s>.<d>s"` when at least one
whole second, else `"<ms>ms"`. -/
def formatDuration (startTime : Nat) (endTime : Option Nat) (now : Nat) : String :=
  let e := endTime.getD now
  let durationMs := e - startTime
  let seconds := durationMs / 1000
  let milliseconds := durationMs % 1000
  if seconds > 0 then
    toString seconds ++ "." ++ toString (milliseconds / 100) ++ "s"
  else
    toString milliseconds ++ "ms"

/-- C7. The duration formatter returns whole milliseconds suffixed `"ms"`
for an elapsed time below one second, and seconds with exactly one decimal
digit suffixed `"s"` for an elapsed time of at least one second; in
particular 950 ms formats as `"950ms"` and 1200 ms as `"1.2s"`. -/
theorem C7_formatDuration_spec (st d n : Nat) :
    (d < 1000 → formatDuration st (some (st + d)) n = toString d ++ "ms")
    ∧ (1000 ≤ d →
        formatDuration st (some (st + d)) n
          = toString (d / 1000) ++ "." ++ toString (d % 1000 / 100) ++ "s"
        ∧ (toString (d % 1000 / 100)).length = 1)
    ∧ formatDuration 0 (some 950) 0 = "950ms"
    ∧ formatDuration 0 (some 1200) 0 = "1.2s" := by
  have hsub : st + d - st = d := by omega
  refine ⟨?_, ?_, by decide, by decide⟩
  · intro hd
    have hz : d / 1000 = 0 := Nat.div_eq_of_lt hd
    have hm : d % 1000 = d := Nat.mod_eq_of_lt hd
    simp [formatDuration, hsub, hz, hm]
  · intro hd
    have hz : 0 < d / 1000 := Nat.div_pos hd (by omega)
    constructor
    · simp [formatDuration, hsub, hz]
    · have hb : ∀ k : Nat, k < 10 → (toString k).length = 1 := by decide
      exact hb _ (by omega)

theorem C7_formatDuration_spec_witness :
    (950 < 1000 ∧ formatDuration 0 (some (0 + 950)) 0 = toString 950 ++ "ms")
    ∧ (1000 ≤ 1200
        ∧ formatDuration 0 (some (0 + 1200)) 0
            = toString (1200 / 1000) ++ "." ++ toString (1200 % 1000 / 100) ++ "s") :=
  ⟨⟨by decide, (C7_formatDuration_spec 0 950 0).1 (by decide)⟩,
   ⟨by decide, ((C7_formatDuration_spec 0 1200 0).2.1 (by decide)).1⟩⟩

/-- C8. The transport schedules at most 5 reconnection attempts over any
run of consecutive closures with no intervening Open (exactly 5 from a
fresh counter, the 6th closure scheduling nothing), every scheduled retry
uses the fixed 3000 ms delay, and Open resets the retry counter to zero. -/
theorem C8_reconnect_bounds :
    (∀ (evs : List WSEvent) (s : WSState), (∀ e ∈ evs, e = WSEvent.closed) →
        (wsScheduled s evs).length ≤ maxReconnectAttempts - s.reconnectAttempts)
    ∧ (∀ (s : WSState) (evs : List WSEvent) (d : Nat),
        d ∈ wsScheduled s evs → d = reconnectTimeout)
    ∧ (∀ s : WSState, (wsStep s WSEvent.opened).1.reconnectAttempts = 0)
    ∧ wsScheduled { reconnectAttempts := 0 } (List.replicate 6 WSEvent.closed)
        = List.replicate 5 reconnectTimeout :=
  ⟨wsScheduled_closed_bound, fun s evs d h => wsScheduled_delay s evs d h,
   fun _ => rfl, by decide⟩

theorem C8_reconnect_bounds_witness :
    ((∀ e ∈ List.replicate 6 WSEvent.closed, e = WSEvent.closed)
      ∧ (wsScheduled { reconnectAttempts := 0 } (List.replicate 6 WSEvent.closed)).length
          ≤ maxReconnectAttempts - (0 : Nat))
    ∧ (3000 ∈ wsScheduled { reconnectAttempts := 0 } [WSEvent.closed]
      ∧ (3000 : Nat) = reconnectTimeout) :=
  ⟨⟨by decide, C8_reconnect_bounds.1 (List.replicate 6 WSEvent.closed)
      { reconnectAttempts := 0 } (by decide)⟩,
   ⟨by decide, C8_reconnect_bounds.2.1 { reconnectAttempts := 0 }
      [WSEvent.closed] 3000 (by decide)⟩⟩

/- ------------------------------------------------------------------ -/
/- Data model of the ChatApp component (src/unnamed/part_000).         -/
/- ------------------------------------------------------------------ -/

/-- One decoded envelope from the push channel (WebSocketMessage). -/
structure WebSocketMessage where
  type : String
  content : String
  timestamp : Option String := none
deriving DecidableEq

/-- One thinking-timer record: start time plus optional end time. -/
structure Timer where
  startTime : Nat
  endTime : Option Nat := none
deriving DecidableEq

/-- One discrete thinking step (ThinkingMessage). -/
structure ThinkingMessage where
  id : String
  content : String
  timestamp : Nat
deriving DecidableEq

inductive Sender where
  | user
  | ai
deriving DecidableEq

/-- One chat message; AI messages carry the finalized thinking timeline. -/
structure Message where
  id : String
  content : String
  sender : Sender
  timestamp : Nat
  messageStatus : Option String := none
  sessionId : Option String := none
  thinkingMessages : Option (List ThinkingMessage) := none
  showThinking : Option Bool := none
  thinkingStartTime : Option Nat := none
  thinkingEndTime : Option Nat := none
deriving DecidableEq

/-- The ChatApp component state (React state plus the always-synced refs). -/
structure ChatState where
  messages : List Message
  inputValue : String
  isLoading : Bool
  error : Option String
  sessionId : Option String
  thinkingMessages : List ThinkingMessage
  currentMessageId : Option String
  thinkingCollapsedStates : List (String × Bool)
  thinkingTimers : List (String × Timer)
  thinkingMessageCounter : Nat
  messageCounter : Nat
deriving DecidableEq

def initialChatState : ChatState :=
  { messages := [], inputValue := "", isLoading := false, error := none,
    sessionId := none, thinkingMessages := [], currentMessageId := none,
    thinkingCollapsedStates := [], thinkingTimers := [],
    thinkingMessageCounter := 0, messageCounter := 0 }

/- ------------------------------------------------------------------ -/
/- MessageType: the enum declared in src/lib/websocket.ts.             -/
/- ------------------------------------------------------------------ -/

/-- The `MessageType` enum exactly as declared in src/lib/websocket.ts:
member-name to string-value lookup; an undeclared member access yields
`none` (TS/JS: a compile error, `undefined` at runtime). -/
def declaredMessageTypeValue : String → Option String
  | "CHAT" => some "chat"
  | "NOTIFICATION" => some "notification"
  | "STATUS" => some "status"
  | "ERROR" => some "error"
  | _ => none

/-- Modelled from the spec: the `THINKING` and `DEEP_THINKING` members of
the `MessageType` enum, referenced by the ChatApp handler (and by
chat-box.tsx) but missing from the declaration in src/lib/websocket.ts;
spec section 6 gives the envelope tags `"thinking"` and `"deep_thinking"`. -/
def modelledMessageTypeValue : String → Option String
  | "THINKING" => some "thinking"
  | "DEEP_THINKING" => some "deep_thinking"
  | n => declaredMessageTypeValue n

/-- The fixed deep-thinking marker string used by the handler and the
visibility gate. -/
def deepThinkingMarker : String := "🧠 Deep Thinking"

/- ------------------------------------------------------------------ -/
/- The ChatApp WebSocket message handler.                              -/
/- ------------------------------------------------------------------ -/

/-- Timer start on the first thinking message of the current request:
`if (currentMsgId && thinkingMessagesRef.current.length === 0)`. -/
def startTimerIfFirst (s : ChatState) (now : Nat) : List (String × Timer) :=
  match s.currentMessageId with
  | some id =>
      if s.thinkingMessages.length = 0 then
        recSet s.thinkingTimers id { startTime := now, endTime := none }
      else
        s.thinkingTimers
  | none => s.thinkingTimers

/-- The CHAT branch: finalize the current session into an AI message. -/
def chatBranch (s : ChatState) (content : String) (now : Nat) : ChatState :=
  let currentThinking := s.thinkingMessages
  let currentMsgId := s.currentMessageId
  let endTime := now
  let timerData : Option Timer :=
    match currentMsgId with
    | some id => recGet s.thinkingTimers id
    | none => none
  let updated : List (String × Timer) × Option Timer :=
    match currentMsgId, timerData with
    | some id, some td =>
        let ftd : Timer := { td with endTime := some endTime }
        (recSet s.thinkingTimers id ftd, some ftd)
    | _, _ => (s.thinkingTimers, timerData)
  let idAndCounter : String × Nat :=
    match currentMsgId with
    | some id => (id, s.messageCounter)
    | none => (toString now ++ "-" ++ toString (s.messageCounter + 1), s.messageCounter + 1)
  let aiMessage : Message :=
    { id := idAndCounter.1, content := content, sender := Sender.ai,
      timestamp := now, sessionId := s.sessionId, messageStatus := some "complete",
      thinkingMessages := some currentThinking,
      showThinking := some (decide (0 < currentThinking.length)),
      thinkingStartTime := updated.2.map (fun td => td.startTime),
      thinkingEndTime := some endTime }
  let collapsed : List (String × Bool) :=
    match currentMsgId with
    | some id =>
        if 0 < currentThinking.length then
          recSet s.thinkingCollapsedStates id true
        else
          s.thinkingCollapsedStates
    | none => s.thinkingCollapsedStates
  { s with messages := s.messages ++ [aiMessage],
           isLoading := false,
           currentMessageId := none,
           thinkingMessages := [],
           thinkingTimers := updated.1,
           thinkingCollapsedStates := collapsed,
           messageCounter := idAndCounter.2 }

/-- The THINKING branch: start the timer on the first thinking message and
append one new step. -/
def thinkingBranch (s : ChatState) (content : String) (now : Nat) : ChatState :=
  let timers := startTimerIfFirst s now
  let c := s.thinkingMessageCounter + 1
  let tm : ThinkingMessage :=
    { id := "thinking-" ++ toString now ++ "-" ++ toString c,
      content := content, timestamp := now }
  { s with thinkingTimers := timers, thinkingMessageCounter := c,
           thinkingMessages := s.thinkingMessages ++ [tm] }

/-- The DEEP_THINKING branch: start the timer on the first thinking
message, then append the chunk text to the first existing step whose
content contains the deep-thinking marker, or create a new marked step. -/
def deepThinkingBranch (s : ChatState) (content : String) (now : Nat) : ChatState :=
  let timers := startTimerIfFirst s now
  match findIndexB (fun m => strContains m.content deepThinkingMarker) s.thinkingMessages with
  | some i =>
      { s with thinkingTimers := timers,
               thinkingMessages :=
                 modifyAt s.thinkingMessages i
                   (fun m => { m with content := m.content ++ content }) }
  | none =>
      let c := s.thinkingMessageCounter + 1
      let tm : ThinkingMessage :=
        { id := "deep-thinking-" ++ toString now ++ "-" ++ toString c,
          content := deepThinkingMarker ++ "\n\n" ++ content, timestamp := now }
      { s with thinkingTimers := timers, thinkingMessageCounter := c,
               thinkingMessages := s.thinkingMessages ++ [tm] }

/-- The handler's dispatch, parametrised by the enum-member lookup it
compares the envelope's type tag against. -/
def handleWsMessageWith (memberValue : String → Option String)
    (s : ChatState) (msg : WebSocketMessage) (now : Nat) : ChatState :=
  if some msg.type = memberValue "CHAT" then
    chatBranch s msg.content now
  else if some msg.type = memberValue "THINKING" then
    thinkingBranch s msg.content now
  else if some msg.type = memberValue "DEEP_THINKING" then
    deepThinkingBranch s msg.content now
  else
    s

/-- The handler with the spec-modelled full enum (see
`modelledMessageTypeValue`). -/
def handleWsMessage : ChatState → WebSocketMessage → Nat → ChatState :=
  handleWsMessageWith modelledMessageTypeValue

/-- The handler against the enum exactly as declared in
src/lib/websocket.ts. -/
def handleWsMessageDeclared : ChatState → WebSocketMessage → Nat → ChatState :=
  handleWsMessageWith declaredMessageTypeValue

/-- Process a sequence of timestamped envelopes in arrival order. -/
def processEnvelopes : ChatState → List (WebSocketMessage × Nat) → ChatState
  | s, [] => s
  | s, (m, t) :: rest => processEnvelopes (handleWsMessage s m t) rest

/-- Same, against the declared-only enum. -/
def processEnvelopesDeclared : ChatState → List (WebSocketMessage × Nat) → ChatState
  | s, [] => s
  | s, (m, t) :: rest => processEnvelopesDeclared (handleWsMessageDeclared s m t) rest

/- ------------------------------------------------------------------ -/
/- handleSendMessage: the synchronous prefix that begins a session.    -/
/- ------------------------------------------------------------------ -/

/-- Result of `handleSendMessage`: the new state plus whether the outbound
HTTP request was issued. -/
structure SendResult where
  state : ChatState
  requested : Bool
deriving DecidableEq

/-- The synchronous prefix of `handleSendMessage`: guard on empty input or
an in-flight request, else record the user message, clear the step buffer
and set a fresh current-message id before the HTTP call. -/
def handleSendMessage (s : ChatState) (now : Nat) : SendResult :=
  if s.inputValue.trim = "" || s.isLoading then
    { state := s, requested := false }
  else
    let c1 := s.messageCounter + 1
    let userMessage : Message :=
      { id := toString now ++ "-" ++ toString c1, content := s.inputValue.trim,
        sender := Sender.user, timestamp := now, sessionId := s.sessionId }
    let c2 := c1 + 1
    let newMessageId := toString now ++ "-" ++ toString c2
    { state :=
        { s with messages := s.messages ++ [userMessage],
                 inputValue := "",
                 isLoading := true,
                 error := none,
                 thinkingMessages := [],
                 currentMessageId := some newMessageId,
                 messageCounter := c2 },
      requested := true }

/- ------------------------------------------------------------------ -/
/- Visibility gate and render guard for thinking timelines.            -/
/- ------------------------------------------------------------------ -/

def shouldShowThinkingBox : Bool := true

/-- `shouldShowThinkingForMessage`: show the thinking card only if some
step mentions "using tool" (case-insensitively) or carries the
deep-thinking marker. -/
def shouldShowThinkingForMessage (m : Message) : Bool :=
  if shouldShowThinkingBox = false then
    false
  else
    match m.thinkingMessages with
    | some l =>
        if 0 < l.length then
          let hasUsingTool := l.any (fun t => strContains (lowerStr t.content) "using tool")
          let hasDeepThinking := l.any (fun t => strContains t.content deepThinkingMarker)
          if !hasUsingTool && !hasDeepThinking then false else true
        else
          true
    | none => true

/-- The render guard for a finalized message's thinking card:
`message.sender === "ai" && shouldShowThinkingForMessage(message) &&
message.thinkingMessages && message.thinkingMessages.length > 0`. -/
def renderedAsTimeline (m : Message) : Bool :=
  (match m.sender with
   | Sender.ai => true
   | Sender.user => false)
  && shouldShowThinkingForMessage m
  && (match m.thinkingMessages with
      | some l => decide (0 < l.length)
      | none => false)

/- ------------------------------------------------------------------ -/
/- Dispatch and branch lemmas.                                         -/
/- ------------------------------------------------------------------ -/

theorem handleWs_chat (s : ChatState) (m : WebSocketMessage) (t : Nat)
    (h : m.type = "chat") : handleWsMessage s m t = chatBranch s m.content t := by
  simp [handleWsMessage, handleWsMessageWith, modelledMessageTypeValue,
    declaredMessageTypeValue, h]

theorem handleWs_thinking (s : ChatState) (m : WebSocketMessage) (t : Nat)
    (h : m.type = "thinking") : handleWsMessage s m t = thinkingBranch s m.content t := by
  simp [handleWsMessage, handleWsMessageWith, modelledMessageTypeValue,
    declaredMessageTypeValue, h]

theorem handleWs_deep (s : ChatState) (m : WebSocketMessage) (t : Nat)
    (h : m.type = "deep_thinking") :
    handleWsMessage s m t = deepThinkingBranch s m.content t := by
  simp [handleWsMessage, handleWsMessageWith, modelledMessageTypeValue,
    declaredMessageTypeValue, h]

theorem handleWs_other (s : ChatState) (m : WebSocketMessage) (t : Nat)
    (h1 : m.type ≠ "chat") (h2 : m.type ≠ "thinking") (h3 : m.type ≠ "deep_thinking") :
    handleWsMessage s m t = s := by
  simp [handleWsMessage, handleWsMessageWith, modelledMessageTypeValue,
    declaredMessageTypeValue, h1, h2, h3]

theorem chatBranch_currentMessageId (s : ChatState) (c : String) (t : Nat) :
    (chatBranch s c t).currentMessageId = none := rfl

theorem thinkingBranch_currentMessageId (s : ChatState) (c : String) (t : Nat) :
    (thinkingBranch s c t).currentMessageId = s.currentMessageId := rfl

theorem deepThinkingBranch_currentMessageId (s : ChatState) (c : String) (t : Nat) :
    (deepThinkingBranch s c t).currentMessageId = s.currentMessageId := by
  unfold deepThinkingBranch
  split <;> rfl

theorem thinkingBranch_thinkingMessages (s : ChatState) (c : String) (t : Nat) :
    (thinkingBranch s c t).thinkingMessages
      = s.thinkingMessages
        ++ [{ id := "thinking-" ++ toString t ++ "-" ++ toString (s.thinkingMessageCounter + 1),
              content := c, timestamp := t }] := rfl

theorem startTimerIfFirst_of_none (s : ChatState) (now : Nat)
    (h : s.currentMessageId = none) : startTimerIfFirst s now = s.thinkingTimers := by
  simp [startTimerIfFirst, h]

theorem chatBranch_timers_of_none (s : ChatState) (c : String) (t : Nat)
    (h : s.currentMessageId = none) :
    (chatBranch s c t).thinkingTimers = s.thinkingTimers := by
  simp [chatBranch, h]

theorem deepThinkingBranch_timers (s : ChatState) (c : String) (t : Nat) :
    (deepThinkingBranch s c t).thinkingTimers = startTimerIfFirst s t := by
  unfold deepThinkingBranch
  split <;> rfl

theorem thinkingBranch_timers (s : ChatState) (c : String) (t : Nat) :
    (thinkingBranch s c t).thinkingTimers = startTimerIfFirst s t := rfl

/-- A concrete freshly-begun live session: current pointer set, no steps,
no timer yet. -/
def liveState : ChatState :=
  { initialChatState with isLoading := true, currentMessageId := some "m1" }

/- ------------------------------------------------------------------ -/
/- C1.                                                                 -/
/- ------------------------------------------------------------------ -/

/-- C1. Claimed: step kind is decided by comparing the envelope's type tag
against the declared enum members, and a run of ThinkingStep envelopes
followed by one Answer yields one step per ThinkingStep envelope.  The
`MessageType` enum declared in src/lib/websocket.ts has no `THINKING` or
`DEEP_THINKING` member, so against the declared enum the handler's
comparisons for thinking kinds can never match: a `"thinking"` envelope
delivered while a session is current is silently ignored and the finalized
session carries zero steps instead of one. -/
theorem C1_thinking_dropped_by_declared_enum :
    declaredMessageTypeValue "THINKING" = none
    ∧ declaredMessageTypeValue "DEEP_THINKING" = none
    ∧ (handleWsMessageDeclared liveState { type := "thinking", content := "step A" } 1)
        = liveState
    ∧ (processEnvelopesDeclared liveState
        [({ type := "thinking", content := "step A" }, 1),
         ({ type := "chat", content := "final" }, 2)]).messages.map
          (fun m => (m.content, m.thinkingMessages))
        = [("final", some [])] :=
  ⟨rfl, rfl, by decide, by decide⟩

/- ------------------------------------------------------------------ -/
/- C3.                                                                 -/
/- ------------------------------------------------------------------ -/

/-- The claim says issuing a new request while a session is live returns an
error to the caller; the code's guard is a silent early return: the state
(including the `error` field) is left untouched and no request is issued,
so no error reaches the caller. -/
theorem C3_begin_while_live_no_error_counterexample :
    liveState.isLoading = true
    ∧ (handleSendMessage { liveState with inputValue := "second question" } 5).state.error = none
    ∧ (handleSendMessage { liveState with inputValue := "second question" } 5).state
        = { liveState with inputValue := "second question" }
    ∧ (handleSendMessage { liveState with inputValue := "second question" } 5).requested = false := by
  have hno : handleSendMessage { liveState with inputValue := "second question" } 5
      = { state := { liveState with inputValue := "second question" }, requested := false } := by
    simp [handleSendMessage, liveState, initialChatState]
  refine ⟨rfl, ?_, ?_, ?_⟩
  · rw [hno]; rfl
  · rw [hno]
  · rw [hno]

/-- C3 (amended). Calling `handleSendMessage` while a request is in flight
is a silent no-op: it issues no request, signals no error, does not crash,
and leaves the whole state — current-message pointer, step buffer, timers
and timestamps — unchanged. -/
theorem C3_begin_while_live_silent_noop (s : ChatState) (t : Nat)
    (h : s.isLoading = true) :
    handleSendMessage s t = { state := s, requested := false } := by
  simp [handleSendMessage, h]

theorem C3_begin_while_live_silent_noop_witness :
    liveState.isLoading = true
    ∧ handleSendMessage liveState 5 = { state := liveState, requested := false } :=
  ⟨rfl, C3_begin_while_live_silent_noop liveState 5 rfl⟩

/- ------------------------------------------------------------------ -/
/- C4.                                                                 -/
/- ------------------------------------------------------------------ -/

/-- The claim says a thinking-kind envelope with no current session is
dropped with the accumulation state unchanged; in the code only the timer
guard checks the current pointer, and the step buffer is still appended
to: from the idle initial state a `"thinking"` envelope grows the buffer
from zero steps to one. -/
theorem C4_orphan_not_dropped_counterexample :
    initialChatState.currentMessageId = none
    ∧ (handleWsMessage initialChatState { type := "thinking", content := "late step" } 9).thinkingMessages
        ≠ initialChatState.thinkingMessages
    ∧ ((handleWsMessage initialChatState { type := "thinking", content := "late step" } 9).thinkingMessages).length
        = 1 := by
  refine ⟨rfl, ?_, ?_⟩ <;> decide

/-- C4 (amended). A ThinkingStep- or DeepThinkingChunk-kind envelope that
arrives when no session is current is non-fatal and starts no timer (the
timer map is unchanged), but it is not dropped: the step buffer still
changes — a ThinkingStep appends a new step, and a DeepThinkingChunk
either merges into the first marker-carrying step or appends a new marked
step. -/
theorem C4_orphan_timers_unchanged_buffer_appended (s : ChatState) (c : String) (t : Nat)
    (h : s.currentMessageId = none) :
    ((handleWsMessage s { type := "thinking", content := c } t).thinkingTimers
        = s.thinkingTimers
      ∧ (handleWsMessage s { type := "thinking", content := c } t).thinkingMessages
          = s.thinkingMessages
            ++ [{ id := "thinking-" ++ toString t ++ "-" ++ toString (s.thinkingMessageCounter + 1),
                  content := c, timestamp := t }])
    ∧ ((handleWsMessage s { type := "deep_thinking", content := c } t).thinkingTimers
        = s.thinkingTimers
      ∧ (handleWsMessage s { type := "deep_thinking", content := c } t).thinkingMessages
          = (match findIndexB (fun x => strContains x.content deepThinkingMarker)
                s.thinkingMessages with
             | some i =>
                 modifyAt s.thinkingMessages i (fun x => { x with content := x.content ++ c })
             | none =>
                 s.thinkingMessages
                   ++ [{ id := "deep-thinking-" ++ toString t ++ "-"
                           ++ toString (s.thinkingMessageCounter + 1),
                         content := deepThinkingMarker ++ "\n\n" ++ c, timestamp := t }])) := by
  rw [handleWs_thinking s _ t rfl, handleWs_deep s _ t rfl]
  refine ⟨⟨?_, rfl⟩, ?_, ?_⟩
  · rw [thinkingBranch_timers]
    exact startTimerIfFirst_of_none s t h
  · rw [deepThinkingBranch_timers]
    exact startTimerIfFirst_of_none s t h
  · unfold deepThinkingBranch
    split <;> simp_all

theorem C4_orphan_timers_unchanged_buffer_appended_witness :
    initialChatState.currentMessageId = none
    ∧ (handleWsMessage initialChatState { type := "thinking", content := "late" } 9).thinkingTimers
        = initialChatState.thinkingTimers :=
  ⟨rfl, (C4_orphan_timers_unchanged_buffer_appended initialChatState "late" 9 rfl).1.1⟩

/- ------------------------------------------------------------------ -/
/- C5.                                                                 -/
/- ------------------------------------------------------------------ -/

/-- The claim says an Answer with zero prior thinking events finalizes a
session whose `endedAt` is absent; the code sets `thinkingEndTime`
unconditionally when building the AI message, so from a freshly-begun
live session with no thinking events the finalized message carries
`endedAt = some 5`, not `none`. -/
theorem C5_endedAt_present_counterexample :
    ((handleWsMessage liveState { type := "chat", content := "final" } 5).messages.map
        (fun m => m.thinkingEndTime)) = [some 5]
    ∧ (some 5 : Option Nat) ≠ none := by
  exact ⟨by decide, by decide⟩

/-- C5 (amended). An Answer arriving for a live session with zero prior
thinking events finalizes a message whose `startedAt` is absent, whose
steps list is empty, whose answer equals the envelope payload, and whose
`endedAt` is set to the answer's arrival time (not absent); such a message
is never rendered as a thinking timeline. -/
theorem C5_answer_without_thinking_session_shape (s : ChatState) (mid ans : String) (t : Nat)
    (h1 : s.currentMessageId = some mid) (h2 : s.thinkingMessages = [])
    (h3 : recGet s.thinkingTimers mid = none) :
    (handleWsMessage s { type := "chat", content := ans } t).messages
      = s.messages
        ++ [{ id := mid, content := ans, sender := Sender.ai, timestamp := t,
              messageStatus := some "complete", sessionId := s.sessionId,
              thinkingMessages := some [], showThinking := some false,
              thinkingStartTime := none, thinkingEndTime := some t }]
    ∧ renderedAsTimeline
        { id := mid, content := ans, sender := Sender.ai, timestamp := t,
          messageStatus := some "complete", sessionId := s.sessionId,
          thinkingMessages := some [], showThinking := some false,
          thinkingStartTime := none, thinkingEndTime := some t } = false := by
  rw [handleWs_chat s _ t rfl]
  constructor
  · simp [chatBranch, h1, h2, h3]
  · simp [renderedAsTimeline, shouldShowThinkingForMessage, shouldShowThinkingBox]

theorem C5_answer_without_thinking_session_shape_witness :
    liveState.currentMessageId = some "m1"
    ∧ liveState.thinkingMessages = []
    ∧ recGet liveState.thinkingTimers "m1" = none
    ∧ (handleWsMessage liveState { type := "chat", content := "done" } 7).messages
        = liveState.messages
          ++ [{ id := "m1", content := "done", sender := Sender.ai, timestamp := 7,
                messageStatus := some "complete", sessionId := liveState.sessionId,
                thinkingMessages := some [], showThinking := some false,
                thinkingStartTime := none, thinkingEndTime := some 7 }] :=
  ⟨rfl, rfl, rfl,
   (C5_answer_without_thinking_session_shape liveState "m1" "done" 7 rfl rfl rfl).1⟩

/- ------------------------------------------------------------------ -/
/- C2.                                                                 -/
/- ------------------------------------------------------------------ -/

theorem deepRun (cs : List (String × Nat)) (old : List ThinkingMessage)
    (tm : ThinkingMessage) (s : ChatState)
    (hmsgs : s.thinkingMessages = old ++ [tm])
    (hold : ∀ x ∈ old, strContains x.content deepThinkingMarker = false)
    (htm : strContains tm.content deepThinkingMarker = true) :
    (processEnvelopes s
        (cs.map (fun c => ({ type := "deep_thinking", content := c.1 }, c.2)))).thinkingMessages
      = old ++ [{ tm with content := tm.content ++ concatAll (cs.map (fun c => c.1)) }] := by
  induction cs generalizing s tm with
  | nil =>
      simp [processEnvelopes, hmsgs, concatAll, str_append_empty]
  | cons c cs' ih =>
      have hstep : handleWsMessage s { type := "deep_thinking", content := c.1 } c.2
          = deepThinkingBranch s c.1 c.2 := handleWs_deep s _ c.2 rfl
      have hfind : findIndexB (fun x => strContains x.content deepThinkingMarker)
          s.thinkingMessages = some old.length := by
        rw [hmsgs]
        exact findIndexB_append_last _ old tm hold htm
      have hmsgs1 : (deepThinkingBranch s c.1 c.2).thinkingMessages
          = old ++ [{ tm with content := tm.content ++ c.1 }] := by
        unfold deepThinkingBranch
        rw [hfind]
        simp [hmsgs, modifyAt_append_last]
      have htm1 : strContains ({ tm with content := tm.content ++ c.1 } : ThinkingMessage).content
          deepThinkingMarker = true :=
        strContains_append_right c.1 htm
      have hrun := ih { tm with content := tm.content ++ c.1 } (deepThinkingBranch s c.1 c.2)
        hmsgs1 htm1
      simp only [List.map_cons, processEnvelopes]
      rw [hstep, hrun]
      simp [concatAll, str_append_assoc]

/-- C2. Any run of two or more consecutive DeepThinkingChunk envelopes,
arriving while no deep-thinking step exists yet, accumulates exactly one
new step whose content is the fixed marker prefix (added once) followed by
the concatenation of the chunks' payloads in arrival order; and a
DeepThinkingChunk never creates a second step while a marker-carrying step
already exists — the buffer length is unchanged. -/
theorem C2_deep_chunk_run_single_step :
    (∀ (s : ChatState) (chunks : List (String × Nat)),
        2 ≤ chunks.length →
        (∀ x ∈ s.thinkingMessages, strContains x.content deepThinkingMarker = false) →
        (processEnvelopes s
            (chunks.map (fun c => ({ type := "deep_thinking", content := c.1 }, c.2)))).thinkingMessages.map
            (fun x => x.content)
          = s.thinkingMessages.map (fun x => x.content)
            ++ [deepThinkingMarker ++ "\n\n" ++ concatAll (chunks.map (fun c => c.1))])
    ∧ (∀ (s : ChatState) (c : String) (t : Nat),
        (∃ x ∈ s.thinkingMessages, strContains x.content deepThinkingMarker = true) →
        (handleWsMessage s { type := "deep_thinking", content := c } t).thinkingMessages.length
          = s.thinkingMessages.length) := by
  constructor
  · intro s chunks hlen hno
    cases chunks with
    | nil => simp at hlen
    | cons c cs' =>
        have hstep : handleWsMessage s { type := "deep_thinking", content := c.1 } c.2
            = deepThinkingBranch s c.1 c.2 := handleWs_deep s _ c.2 rfl
        have hfind : findIndexB (fun x => strContains x.content deepThinkingMarker)
            s.thinkingMessages = none := findIndexB_none _ _ hno
        have hmsgs1 : (deepThinkingBranch s c.1 c.2).thinkingMessages
            = s.thinkingMessages
              ++ [{ id := "deep-thinking-" ++ toString c.2 ++ "-"
                      ++ toString (s.thinkingMessageCounter + 1),
                    content := deepThinkingMarker ++ "\n\n" ++ c.1, timestamp := c.2 }] := by
          unfold deepThinkingBranch
          rw [hfind]
        have hcontains : strContains (deepThinkingMarker ++ "\n\n" ++ c.1)
            deepThinkingMarker = true := by
          rw [str_append_assoc]
          exact strContains_self_append deepThinkingMarker ("\n\n" ++ c.1)
        have hrun := deepRun cs' s.thinkingMessages
          { id := "deep-thinking-" ++ toString c.2 ++ "-"
              ++ toString (s.thinkingMessageCounter + 1),
            content := deepThinkingMarker ++ "\n\n" ++ c.1, timestamp := c.2 }
          (deepThinkingBranch s c.1 c.2) hmsgs1 hno hcontains
        simp only [List.map_cons, processEnvelopes]
        rw [hstep, hrun]
        simp [concatAll, str_append_assoc]
  · intro s c t hex
    obtain ⟨i, hi⟩ := findIndexB_isSome _ _ hex
    rw [handleWs_deep s _ t rfl]
    unfold deepThinkingBranch
    rw [hi]
    simp [modifyAt_length]

theorem C2_deep_chunk_run_single_step_witness :
    (2 ≤ ([("part1", 1), ("part2", 2)] : List (String × Nat)).length)
    ∧ (processEnvelopes initialChatState
        (([("part1", 1), ("part2", 2)] : List (String × Nat)).map
          (fun c => ({ type := "deep_thinking", content := c.1 }, c.2)))).thinkingMessages.map
          (fun x => x.content)
        = initialChatState.thinkingMessages.map (fun x => x.content)
          ++ [deepThinkingMarker ++ "\n\n"
                ++ concatAll (([("part1", 1), ("part2", 2)] : List (String × Nat)).map
                    (fun c => c.1))]
    ∧ (handleWsMessage
          { initialChatState with
            thinkingMessages := [{ id := "d1", content := deepThinkingMarker, timestamp := 0 }] }
          { type := "deep_thinking", content := "x" } 3).thinkingMessages.length
        = ({ initialChatState with
             thinkingMessages := [{ id := "d1", content := deepThinkingMarker, timestamp := 0 }] }
            : ChatState).thinkingMessages.length :=
  ⟨by decide,
   C2_deep_chunk_run_single_step.1 initialChatState [("part1", 1), ("part2", 2)]
     (by decide) (by decide),
   C2_deep_chunk_run_single_step.2
     { initialChatState with
       thinkingMessages := [{ id := "d1", content := deepThinkingMarker, timestamp := 0 }] }
     "x" 3
     ⟨{ id := "d1", content := deepThinkingMarker, timestamp := 0 }, by decide, by decide⟩⟩

/- ------------------------------------------------------------------ -/
/- C9.                                                                 -/
/- ------------------------------------------------------------------ -/

/-- C9. A finalized AI message's thinking timeline is rendered if and only
if at least one accumulated step's content matches the "using tool" marker
(case-insensitively) or contains the deep-thinking marker; a message whose
steps are all generic is not displayed. -/
theorem C9_visibility_gate_iff (m : Message) (l : List ThinkingMessage)
    (hai : m.sender = Sender.ai) (hl : m.thinkingMessages = some l) :
    renderedAsTimeline m = true
      ↔ ∃ x ∈ l, (strContains (lowerStr x.content) "using tool" = true
          ∨ strContains x.content deepThinkingMarker = true) := by
  cases l with
  | nil =>
      simp [renderedAsTimeline, shouldShowThinkingForMessage, shouldShowThinkingBox, hai, hl]
  | cons a as =>
      simp only [renderedAsTimeline, shouldShowThinkingForMessage, shouldShowThinkingBox,
        hai, hl]
      simp [List.any_eq_true]
      constructor
      · rintro ((h | ⟨x, hx, hp⟩) | (h | ⟨x, hx, hp⟩))
        · exact Or.inl (Or.inl h)
        · exact Or.inr ⟨x, hx, Or.inl hp⟩
        · exact Or.inl (Or.inr h)
        · exact Or.inr ⟨x, hx, Or.inr hp⟩
      · rintro ((h | h) | ⟨x, hx, hp | hp⟩)
        · exact Or.inl (Or.inl h)
        · exact Or.inr (Or.inl h)
        · exact Or.inl (Or.inr ⟨x, hx, hp⟩)
        · exact Or.inr (Or.inr ⟨x, hx, hp⟩)

theorem C9_visibility_gate_iff_witness :
    (({ id := "a1", content := "ans", sender := Sender.ai, timestamp := 0,
        thinkingMessages := some [{ id := "t1", content := "Using tool: grep", timestamp := 1 }] }
        : Message).sender = Sender.ai)
    ∧ renderedAsTimeline
        { id := "a1", content := "ans", sender := Sender.ai, timestamp := 0,
          thinkingMessages := some [{ id := "t1", content := "Using tool: grep", timestamp := 1 }] }
        = true :=
  ⟨rfl,
   (C9_visibility_gate_iff
      { id := "a1", content := "ans", sender := Sender.ai, timestamp := 0,
        thinkingMessages := some [{ id := "t1", content := "Using tool: grep", timestamp := 1 }] }
      [{ id := "t1", content := "Using tool: grep", timestamp := 1 }] rfl rfl).mpr
     ⟨{ id := "t1", content := "Using tool: grep", timestamp := 1 }, by decide,
      Or.inl (by decide)⟩⟩

/- ------------------------------------------------------------------ -/
/- C10.                                                                -/
/- ------------------------------------------------------------------ -/

/-- C10. A DeepThinkingChunk merges into the first existing step whose
content contains the deep-thinking marker as a substring, regardless of
how that step was created: the chunk's payload is appended to that step's
content in place and the buffer length is unchanged. -/
theorem C10_deep_chunk_merges_first_marker_step (s : ChatState) (i : Nat) (c : String) (t : Nat)
    (hfind : findIndexB (fun x => strContains x.content deepThinkingMarker)
        s.thinkingMessages = some i) :
    (handleWsMessage s { type := "deep_thinking", content := c } t).thinkingMessages
      = modifyAt s.thinkingMessages i (fun x => { x with content := x.content ++ c })
    ∧ (handleWsMessage s { type := "deep_thinking", content := c } t).thinkingMessages.length
      = s.thinkingMessages.length := by
  rw [handleWs_deep s _ t rfl]
  constructor
  · unfold deepThinkingBranch
    rw [hfind]
  · unfold deepThinkingBranch
    rw [hfind]
    simp [modifyAt_length]

/-- An ordinary ThinkingStep whose content happens to contain the marker
text, created through the THINKING branch of the handler itself. -/
def orphanMarkerState : ChatState :=
  handleWsMessage liveState { type := "thinking", content := "note: 🧠 Deep Thinking ahead" } 1

theorem C10_deep_chunk_merges_first_marker_step_witness :
    findIndexB (fun x => strContains x.content deepThinkingMarker)
        orphanMarkerState.thinkingMessages = some 0
    ∧ (handleWsMessage orphanMarkerState { type := "deep_thinking", content := " more" } 2).thinkingMessages
        = modifyAt orphanMarkerState.thinkingMessages 0
            (fun x => { x with content := x.content ++ " more" })
    ∧ (handleWsMessage orphanMarkerState
          { type := "deep_thinking", content := " more" } 2).thinkingMessages.length
        = orphanMarkerState.thinkingMessages.length :=
  ⟨by decide,
   (C10_deep_chunk_merges_first_marker_step orphanMarkerState 0 " more" 2 (by decide)).1,
   (C10_deep_chunk_merges_first_marker_step orphanMarkerState 0 " more" 2 (by decide)).2⟩

/- ------------------------------------------------------------------ -/
/- C6.                                                                 -/
/- ------------------------------------------------------------------ -/

/-- Thinking-kind envelope tags. -/
def thinkingKind (ty : String) : Bool :=
  ty == "thinking" || ty == "deep_thinking"

/-- Capture time of the first thinking-kind envelope in a trace. -/
def firstThinkingTime : List (WebSocketMessage × Nat) → Option Nat
  | [] => none
  | (m, t) :: rest => if thinkingKind m.type then some t else firstThinkingTime rest

theorem timers_frozen_after_end (evs : List (WebSocketMessage × Nat)) (s : ChatState)
    (h : s.currentMessageId = none) :
    (processEnvelopes s evs).thinkingTimers = s.thinkingTimers
    ∧ (processEnvelopes s evs).currentMessageId = none := by
  induction evs generalizing s with
  | nil => exact ⟨rfl, h⟩
  | cons e rest ih =>
      obtain ⟨m, t⟩ := e
      simp only [processEnvelopes]
      by_cases h1 : m.type = "chat"
      · rw [handleWs_chat s m t h1]
        have hcb : (chatBranch s m.content t).thinkingTimers = s.thinkingTimers :=
          chatBranch_timers_of_none s m.content t h
        have hrec := ih (chatBranch s m.content t) (chatBranch_currentMessageId s m.content t)
        exact ⟨hrec.1.trans hcb, hrec.2⟩
      · by_cases h2 : m.type = "thinking"
        · rw [handleWs_thinking s m t h2]
          have htb : (thinkingBranch s m.content t).thinkingTimers = s.thinkingTimers := by
            rw [thinkingBranch_timers]
            exact startTimerIfFirst_of_none s t h
          have hcm : (thinkingBranch s m.content t).currentMessageId = none := by
            rw [thinkingBranch_currentMessageId]
            exact h
          have hrec := ih _ hcm
          exact ⟨hrec.1.trans htb, hrec.2⟩
        · by_cases h3 : m.type = "deep_thinking"
          · rw [handleWs_deep s m t h3]
            have hdb : (deepThinkingBranch s m.content t).thinkingTimers = s.thinkingTimers := by
              rw [deepThinkingBranch_timers]
              exact startTimerIfFirst_of_none s t h
            have hcm : (deepThinkingBranch s m.content t).currentMessageId = none := by
              rw [deepThinkingBranch_currentMessageId]
              exact h
            have hrec := ih _ hcm
            exact ⟨hrec.1.trans hdb, hrec.2⟩
          · rw [handleWs_other s m t h1 h2 h3]
            exact ih s h

theorem recGet_startTimerIfFirst (s : ChatState) (now : Nat) (mid : String)
    (h2 : s.currentMessageId = some mid → s.thinkingMessages ≠ []) :
    recGet (startTimerIfFirst s now) mid = recGet s.thinkingTimers mid := by
  unfold startTimerIfFirst
  cases hc : s.currentMessageId with
  | none => rfl
  | some id =>
      by_cases hb : s.thinkingMessages.length = 0
      · have hne : id ≠ mid := by
          intro he
          subst he
          exact (h2 hc) (List.length_eq_zero.mp hb)
        simp [hb, recGet_recSet, hne]
      · simp [hb]

theorem chatBranch_recGet_startTime (s : ChatState) (c : String) (t : Nat) (mid : String) :
    (recGet (chatBranch s c t).thinkingTimers mid).map (fun td => td.startTime)
      = (recGet s.thinkingTimers mid).map (fun td => td.startTime) := by
  unfold chatBranch
  cases hcm : s.currentMessageId with
  | none => simp
  | some id =>
      cases hg : recGet s.thinkingTimers id with
      | none => simp [hg]
      | some td =>
          by_cases hid : id = mid
          · subst hid
            simp [hg, recGet_recSet]
          · simp [hg, recGet_recSet, hid]

theorem deepThinkingBranch_thinkingMessages_ne_nil (s : ChatState) (c : String) (t : Nat)
    (h : s.thinkingMessages ≠ []) : (deepThinkingBranch s c t).thinkingMessages ≠ [] := by
  unfold deepThinkingBranch
  split
  · rename_i x d heq
    intro hnil
    have hnil' : (modifyAt s.thinkingMessages d
        (fun m => { m with content := m.content ++ c })) = [] := hnil
    have hlen := modifyAt_length s.thinkingMessages d
      (fun m => { m with content := m.content ++ c })
    rw [hnil'] at hlen
    exact h (List.length_eq_zero.mp hlen.symm)
  · simp

theorem startPreserved_step (s : ChatState) (m : WebSocketMessage) (t : Nat)
    (mid : String) (t0 : Nat)
    (h1 : (recGet s.thinkingTimers mid).map (fun td => td.startTime) = some t0)
    (h2 : s.currentMessageId = some mid → s.thinkingMessages ≠ []) :
    ((recGet (handleWsMessage s m t).thinkingTimers mid).map (fun td => td.startTime) = some t0)
    ∧ ((handleWsMessage s m t).currentMessageId = some mid →
        (handleWsMessage s m t).thinkingMessages ≠ []) := by
  by_cases hc : m.type = "chat"
  · rw [handleWs_chat s m t hc]
    refine ⟨?_, ?_⟩
    · rw [chatBranch_recGet_startTime]
      exact h1
    · intro hmm
      rw [chatBranch_currentMessageId] at hmm
      simp at hmm
  · by_cases ht : m.type = "thinking"
    · rw [handleWs_thinking s m t ht]
      refine ⟨?_, ?_⟩
      · rw [thinkingBranch_timers, recGet_startTimerIfFirst s t mid h2]
        exact h1
      · intro _
        rw [thinkingBranch_thinkingMessages]
        simp
    · by_cases hd : m.type = "deep_thinking"
      · rw [handleWs_deep s m t hd]
        refine ⟨?_, ?_⟩
        · rw [deepThinkingBranch_timers, recGet_startTimerIfFirst s t mid h2]
          exact h1
        · intro hmm
          rw [deepThinkingBranch_currentMessageId] at hmm
          exact deepThinkingBranch_thinkingMessages_ne_nil s m.content t (h2 hmm)
      · rw [handleWs_other s m t hc ht hd]
        exact ⟨h1, h2⟩

theorem startPreserved_run (evs : List (WebSocketMessage × Nat)) (mid : String) (t0 : Nat)
    (s : ChatState)
    (h1 : (recGet s.thinkingTimers mid).map (fun td => td.startTime) = some t0)
    (h2 : s.currentMessageId = some mid → s.thinkingMessages ≠ []) :
    (recGet (processEnvelopes s evs).thinkingTimers mid).map (fun td => td.startTime)
      = some t0 := by
  induction evs generalizing s with
  | nil => exact h1
  | cons e rest ih =>
      obtain ⟨m, t⟩ := e
      simp only [processEnvelopes]
      have hstep := startPreserved_step s m t mid t0 h1 h2
      exact ih _ hstep.1 hstep.2

/-- C6. For a freshly-begun live session, the timer's `startedAt` after
processing any envelope trace equals the capture time of the first
thinking-kind envelope delivered before the terminal Answer — assigned
exactly on that first event, never the begin-session time, and never
modified by any later envelope. -/
theorem C6_startedAt_first_thinking_event (evs : List (WebSocketMessage × Nat))
    (s : ChatState) (mid : String)
    (h1 : s.currentMessageId = some mid) (h2 : s.thinkingMessages = [])
    (h3 : recGet s.thinkingTimers mid = none) :
    (recGet (processEnvelopes s evs).thinkingTimers mid).map (fun td => td.startTime)
      = firstThinkingTime (evs.takeWhile (fun e => !(e.1.type == "chat"))) := by
  induction evs generalizing s with
  | nil => simp [processEnvelopes, h3, firstThinkingTime]
  | cons e rest ih =>
      obtain ⟨m, t⟩ := e
      simp only [processEnvelopes]
      by_cases hc : m.type = "chat"
      · rw [handleWs_chat s m t hc]
        have hfrozen := timers_frozen_after_end rest (chatBranch s m.content t)
          (chatBranch_currentMessageId s m.content t)
        rw [hfrozen.1]
        have hct : (chatBranch s m.content t).thinkingTimers = s.thinkingTimers := by
          simp [chatBranch, h1, h3]
        rw [hct, h3]
        have hstop : (((m, t) :: rest).takeWhile (fun e => !(e.1.type == "chat"))) = [] := by
          simp [List.takeWhile_cons, hc]
        rw [hstop]
        rfl
      · by_cases ht : m.type = "thinking"
        · rw [handleWs_thinking s m t ht]
          have hT : (thinkingBranch s m.content t).thinkingTimers
              = recSet s.thinkingTimers mid { startTime := t, endTime := none } := by
            rw [thinkingBranch_timers]
            unfold startTimerIfFirst
            rw [h1]
            simp [h2]
          have hp1 : (recGet (thinkingBranch s m.content t).thinkingTimers mid).map
              (fun td => td.startTime) = some t := by
            rw [hT]
            simp [recGet_recSet]
          have hp2 : (thinkingBranch s m.content t).currentMessageId = some mid →
              (thinkingBranch s m.content t).thinkingMessages ≠ [] := by
            intro _
            rw [thinkingBranch_thinkingMessages]
            simp
          rw [startPreserved_run rest mid t _ hp1 hp2]
          have hkeep : (((m, t) :: rest).takeWhile (fun e => !(e.1.type == "chat")))
              = (m, t) :: rest.takeWhile (fun e => !(e.1.type == "chat")) := by
            simp [List.takeWhile_cons, hc]
          rw [hkeep]
          simp [firstThinkingTime, thinkingKind, ht]
        · by_cases hd : m.type = "deep_thinking"
          · rw [handleWs_deep s m t hd]
            have hfind0 : findIndexB (fun x => strContains x.content deepThinkingMarker)
                s.thinkingMessages = none := by
              rw [h2]
              rfl
            have hT : (deepThinkingBranch s m.content t).thinkingTimers
                = recSet s.thinkingTimers mid { startTime := t, endTime := none } := by
              rw [deepThinkingBranch_timers]
              unfold startTimerIfFirst
              rw [h1]
              simp [h2]
            have hp1 : (recGet (deepThinkingBranch s m.content t).thinkingTimers mid).map
                (fun td => td.startTime) = some t := by
              rw [hT]
              simp [recGet_recSet]
            have hp2 : (deepThinkingBranch s m.content t).currentMessageId = some mid →
                (deepThinkingBranch s m.content t).thinkingMessages ≠ [] := by
              intro _
              unfold deepThinkingBranch
              rw [hfind0]
              simp
            rw [startPreserved_run rest mid t _ hp1 hp2]
            have hkeep : (((m, t) :: rest).takeWhile (fun e => !(e.1.type == "chat")))
                = (m, t) :: rest.takeWhile (fun e => !(e.1.type == "chat")) := by
              simp [List.takeWhile_cons, hc]
            rw [hkeep]
            simp [firstThinkingTime, thinkingKind, ht, hd]
          · rw [handleWs_other s m t hc ht hd]
            rw [ih s h1 h2 h3]
            have hkeep : (((m, t) :: rest).takeWhile (fun e => !(e.1.type == "chat")))
                = (m, t) :: rest.takeWhile (fun e => !(e.1.type == "chat")) := by
              simp [List.takeWhile_cons, hc]
            rw [hkeep]
            simp [firstThinkingTime, thinkingKind, ht, hd]

theorem C6_startedAt_first_thinking_event_witness :
    liveState.currentMessageId = some "m1"
    ∧ liveState.thinkingMessages = []
    ∧ recGet liveState.thinkingTimers "m1" = none
    ∧ (recGet (processEnvelopes liveState
          [({ type := "status", content := "s" }, 1),
           ({ type := "thinking", content := "a" }, 4),
           ({ type := "thinking", content := "b" }, 6),
           ({ type := "chat", content := "ans" }, 9),
           ({ type := "thinking", content := "late" }, 12)]).thinkingTimers "m1").map
          (fun td => td.startTime)
        = firstThinkingTime
            (([({ type := "status", content := "s" }, 1),
               ({ type := "thinking", content := "a" }, 4),
               ({ type := "thinking", content := "b" }, 6),
               ({ type := "chat", content := "ans" }, 9),
               ({ type := "thinking", content := "late" }, 12)]
              : List (WebSocketMessage × Nat)).takeWhile (fun e => !(e.1.type == "chat")))
    ∧ firstThinkingTime
        (([({ type := "status", content := "s" }, 1),
           ({ type := "thinking", content := "a" }, 4),
           ({ type := "thinking", content := "b" }, 6),
           ({ type := "chat", content := "ans" }, 9),
           ({ type := "thinking", content := "late" }, 12)]
          : List (WebSocketMessage × Nat)).takeWhile (fun e => !(e.1.type == "chat")))
        = some 4 :=
  ⟨rfl, rfl, rfl,
   C6_startedAt_first_thinking_event
     [({ type := "status", content := "s" }, 1),
      ({ type := "thinking", content := "a" }, 4),
      ({ type := "thinking", content := "b" }, 6),
      ({ type := "chat", content := "ans" }, 9),
      ({ type := "thinking", content := "late" }, 12)]
     liveState "m1" rfl rfl rfl,
   by decide⟩
